import Mathlib

/-!
Shallow embedding of `src/ism_animation.py` (RIR propagation animation via
the image-source method). Real arithmetic of the script (Python floats) is
modelled exactly over `ℚ`; sample counts, frame numbers and sampling rates
are `ℕ`. Matplotlib artists are modelled by the attributes the script reads
or writes; calls into matplotlib that only render (scatter, add_patch,
tight_layout) are recorded as data or as trace events.
-/

namespace ISMAnimation

/-- Speed of sound used by `animate` (343 m/s). -/
def speedOfSound : ℚ := 343

/-- A `matplotlib.patches.Circle` as the script uses it: the constructor
arguments `(x, y)`, `radius`, `fill`, `linewidth`, `edgecolor`, plus the
`alpha` attribute that `animate` assigns (initially unset). The edgecolor
is the index of the colour taken from the style cycle by the scatter call
of the corresponding image-source order. -/
structure Circle where
  center : ℚ × ℚ
  radius : ℚ
  fill : Bool
  linewidth : ℚ
  edgecolor : ℕ
  alpha : Option ℚ
deriving DecidableEq, Repr

/-- The fields of a pyroomacoustics `SoundSource` that `plot_room` reads:
the parallel arrays `orders` and `images` (column `i` of `images` is the
position of image source `i`, `orders[i]` its reflection order). -/
structure ImageSources where
  orders : List ℕ
  images : List (ℚ × ℚ)
deriving DecidableEq, Repr

/-- The (order, position) pairs of the image sources. -/
def ImageSources.pairs (ims : ImageSources) : List (ℕ × (ℚ × ℚ)) :=
  ims.orders.zip ims.images

/-- Models `im_sources.images[:, im_sources.orders == order]`: the positions of the
image sources of the given order, in original column order. -/
def sourcesOfOrder (ims : ImageSources) (o : ℕ) : List (ℚ × ℚ) :=
  (ims.pairs.filter (fun p => decide (p.1 = o))).map Prod.snd

/-- Models `patches.Circle((x[i], y[i]), radius=0, fill=False, linewidth=2,
edgecolor=color)` with `color` the scatter colour of order `o`. -/
def mkPropagationCircle (o : ℕ) (pos : ℚ × ℚ) : Circle :=
  { center := pos, radius := 0, fill := false, linewidth := 2,
    edgecolor := o, alpha := none }

/-- The `propagations` list built by the image-source loop of `plot_room`:
for `order in range(max_order + 1)`, one circle per image source of that
order. -/
def plotRoomCircles (ims : ImageSources) (max_order : ℕ) : List Circle :=
  (List.range (max_order + 1)).flatMap fun o =>
    (sourcesOfOrder ims o).map (mkPropagationCircle o)

/-- Models `np.arange(n) / fs`: the time axis of the first `n` samples. -/
def timeAxis (n : ℕ) (fs : ℕ) : List ℚ :=
  (List.range n).map (fun k => (k : ℚ) / (fs : ℚ))

/-- The lines plotted on `axs[1]` by `plot_room`: the reference waveform if
`init_rir.size > 0`, then the (initially empty) reveal line. -/
def plotRoomAxis2Lines (fs : ℕ) (init_rir : List ℚ) : List (List ℚ × List ℚ) :=
  (if 0 < init_rir.length then [(timeAxis init_rir.length fs, init_rir)] else [])
    ++ [([], [])]

/-- The title of the room axes: the static string set by `plot_room`, or the
time-stamped string `animate` formats from `t_ind`. -/
inductive Title where
  | static : String → Title
  | timed : ℚ → Title
deriving DecidableEq, Repr

/-- The mutable state `animate` acts on: the `propagations` circles, the
data of the reveal line, and the room-axes title. -/
structure AnimState where
  circles : List Circle
  lineData : List ℚ × List ℚ
  title : Title
deriving DecidableEq, Repr

/-- Mutation of a circle by one loop iteration:
`propagation.set_radius(t_ind * 343.0)` and
`propagation.alpha = 1 - t_ind * 10`. -/
def updateCircle (t_ind : ℚ) (c : Circle) : Circle :=
  { c with radius := t_ind * speedOfSound, alpha := some (1 - t_ind * 10) }

/-- The `for propagation in propagations` loop of `animate`: each iteration
updates the current circle, then sets the reveal line to
`(np.arange(frame_num) / fs, rir[:frame_num])` and the title to the
time-stamped text. -/
def animateGo (t_ind : ℚ) (frame_num fs : ℕ) (rir : List ℚ) :
    List Circle → (List ℚ × List ℚ) → Title →
      List Circle × (List ℚ × List ℚ) × Title
  | [], line, title => ([], line, title)
  | c :: rest, _line, _title =>
      let out := animateGo t_ind frame_num fs rir rest
        (timeAxis frame_num fs, rir.take frame_num) (Title.timed t_ind)
      (updateCircle t_ind c :: out.1, out.2)

/-- Models `animate(frame_num, ax, line, propagations, rir, fs)`: computes
`t_ind = frame_num / fs` and runs the loop over the propagations. -/
def animate (frame_num : ℕ) (fs : ℕ) (rir : List ℚ) (s : AnimState) : AnimState :=
  let t_ind : ℚ := (frame_num : ℚ) / (fs : ℚ)
  let out := animateGo t_ind frame_num fs rir s.circles s.lineData s.title
  { circles := out.1, lineData := out.2.1, title := out.2.2 }

/-- The circles after the loop: every propagation updated with `t_ind`. -/
theorem animateGo_fst (t : ℚ) (n fs : ℕ) (rir : List ℚ) (cs : List Circle)
    (line : List ℚ × List ℚ) (title : Title) :
    (animateGo t n fs rir cs line title).1 = cs.map (updateCircle t) := by
  induction cs generalizing line title with
  | nil => rfl
  | cons c rest ih => simp [animateGo, ih]

/-- Line data and title after a loop over a non-empty propagations list. -/
theorem animateGo_snd_ne (t : ℚ) (n fs : ℕ) (rir : List ℚ) (cs : List Circle)
    (line : List ℚ × List ℚ) (title : Title) (h : cs ≠ []) :
    (animateGo t n fs rir cs line title).2
      = ((timeAxis n fs, rir.take n), Title.timed t) := by
  induction cs generalizing line title with
  | nil => exact absurd rfl h
  | cons c rest ih =>
      cases rest with
      | nil => rfl
      | cons c' rest' =>
          have step : (animateGo t n fs rir (c :: c' :: rest') line title).2
              = (animateGo t n fs rir (c' :: rest')
                  (timeAxis n fs, rir.take n) (Title.timed t)).2 := rfl
          rw [step, ih _ _ (by simp)]

/-- A pyroomacoustics `Wall` as `plot_room` reads it: `wall.corners[:, 0]`
is the first corner. -/
structure Wall where
  corners : List (ℚ × ℚ)
deriving DecidableEq, Repr

/-- The outcome of `plot_room`: the artists it creates on the two axes and
the `(line, propagations)` pair it returns. -/
structure PlotRoomResult where
  roomCorners : List (ℚ × ℚ)
  micPos : ℚ × ℚ
  propagations : List Circle
  axis2Lines : List (List ℚ × List ℚ)
  revealLine : List ℚ × List ℚ
deriving DecidableEq, Repr

/-- Models `plot_room(axs, walls, mic_pos, im_sources, max_order, fs, init_rir)`:
draws the room polygon from the first corner of each wall, the microphone
marker, one propagation circle per image source of each order up to
`max_order`, the optional reference waveform, and the empty reveal line;
returns the reveal line and the propagation circles. -/
def plot_room (walls : List Wall) (mic_pos : ℚ × ℚ) (im_sources : ImageSources)
    (max_order : ℕ) (fs : ℕ) (init_rir : List ℚ) : PlotRoomResult :=
  { roomCorners := walls.map (fun w => w.corners.headD (0, 0)),
    micPos := mic_pos,
    propagations := plotRoomCircles im_sources max_order,
    axis2Lines := plotRoomAxis2Lines fs init_rir,
    revealLine := ([], []) }

/-- The fields of a pyroomacoustics room that `create_animation` reads:
`walls`, the microphone positions (the rows of `mic_array.R.T`), the
sources, `max_order` and `fs`. -/
structure Room where
  walls : List Wall
  micPositions : List (ℚ × ℚ)
  sources : List ImageSources
  max_order : ℕ
  fs : ℕ
deriving DecidableEq, Repr

/-- The module-level bindings of the script that can be in scope when
`create_animation` runs. Only `room_dim` is read by `create_animation`;
the others are bound by the `__main__` block and never read by it. -/
structure Globals where
  room_dim : Option (ℚ × ℚ)
  roomBinding : Option Room
  fracDelayBinding : Option ℕ
deriving DecidableEq, Repr

/-- Exceptions the modelled fragment can raise. -/
inductive PyError where
  | indexError : PyError
  | nameError : String → PyError
deriving DecidableEq, Repr

/-- Observable side effects of `create_animation`, in program order. -/
inductive Event where
  | createFigure : Event
  | roomPlotted : PlotRoomResult → Event
  | setXlim : ℚ → ℚ → Event
  | setYlim : ℚ → ℚ → Event
  | tightLayout : Event
  | animationConstructed : ℕ → Event
  | saveFile : String → ℕ → Event
  | closeFigure : Event
deriving DecidableEq, Repr

/-- Models `int(0.1 * fs)` for the integer sampling rate `fs`: the float product
`0.1 * fs` never crosses an integer boundary for machine-sized `fs`, so
truncation yields `fs / 10` (natural division). -/
def numFrames (fs : ℕ) : ℕ := fs / 10

/-- Models `FuncAnimation(fig, animate, frames=n, ...)`: with an integer frame
count drives `animate` once per frame number in `range(n)`: the saved
animation folds `animate` over the frame numbers `0 .. n-1`. -/
def runFrames (fs : ℕ) (rir : List ℚ) (n : ℕ) (s : AnimState) : AnimState :=
  (List.range n).foldl (fun st k => animate k fs rir st) s

/-- The static title `plot_room` sets on the room axes. -/
def roomTitle : String := "Room Impulse Response of a shoebox room"

/-- Models `create_animation(room, rir, src_recv_idx, init_rir, filename)` run
under the module-level bindings `g`: builds the figure, calls `plot_room`
with `room.mic_array.R.T[src_recv_idx[0]]` and
`room.sources[src_recv_idx[1]]` (IndexError if out of bounds), sets the
view limits from the global `room_dim` (NameError if unbound), constructs
the animation over `int(0.1 * room.fs)` frames, saves it to
`filename + ".mp4"` with an FFMpeg writer at 60 fps, and closes the
figure. Returns the event trace and the final animation state or the
exception. -/
def create_animation (g : Globals) (room : Room) (rir : List ℚ)
    (src_recv_idx : ℕ × ℕ) (init_rir : List ℚ) (filename : String) :
    List Event × Except PyError AnimState :=
  let ev0 : List Event := [Event.createFigure]
  match room.micPositions[src_recv_idx.1]?, room.sources[src_recv_idx.2]? with
  | none, _ => (ev0, Except.error PyError.indexError)
  | some _, none => (ev0, Except.error PyError.indexError)
  | some mic, some ims =>
      let pr := plot_room room.walls mic ims room.max_order room.fs init_rir
      let ev1 := ev0 ++ [Event.roomPlotted pr]
      match g.room_dim with
      | none => (ev1, Except.error (PyError.nameError "room_dim"))
      | some d =>
          let frames := numFrames room.fs
          let ev2 := ev1 ++ [Event.setXlim 0 d.1, Event.setYlim 0 d.2,
            Event.tightLayout, Event.animationConstructed frames]
          let s0 : AnimState :=
            ⟨pr.propagations, pr.revealLine, Title.static roomTitle⟩
          let sN := runFrames room.fs rir frames s0
          (ev2 ++ [Event.saveFile (filename ++ ".mp4") 60, Event.closeFigure],
            Except.ok sN)

/-- The `frames` argument recorded when the animation is constructed. -/
def framesArg : Event → Option ℕ
  | Event.animationConstructed k => some k
  | _ => none

/-- The state after executing the body of the `animate` loop exactly once:
all circles updated, the reveal line and the title set once. -/
def animateOnceS (n fs : ℕ) (rir : List ℚ) (s : AnimState) : AnimState :=
  ⟨s.circles.map (updateCircle ((n : ℚ) / (fs : ℚ))),
    (timeAxis n fs, rir.take n),
    Title.timed ((n : ℚ) / (fs : ℚ))⟩

/-- Models `1 - t_ind * 10`: the alpha value `animate` assigns at frame `n`. -/
def animAlpha (n fs : ℕ) : ℚ := 1 - ((n : ℚ) / (fs : ℚ)) * 10

/-! Concrete fixtures used by witnesses and counterexamples. -/

/-- A propagation circle at (2, 4), as created by `plot_room`. -/
def exCircle : Circle := ⟨(2, 4), 0, false, 2, 0, none⟩

/-- An animation state with a single propagation circle. -/
def exState : AnimState := ⟨[exCircle], ([], []), Title.static roomTitle⟩

/-- An animation state with no propagation circles. -/
def exStateEmpty : AnimState := ⟨[], ([0], [3]), Title.static roomTitle⟩

/-- A single image source of order 0 at (2, 4). -/
def exSources : ImageSources := ⟨[0], [(2, 4)]⟩

/-- Image sources of orders 0, 1, 1, 2 with distinct positions. -/
def exSources2 : ImageSources :=
  ⟨[0, 1, 1, 2], [(2, 4), (-2, 4), (2, -4), (-2, -4)]⟩

/-- A room with one wall, one microphone and one source, `fs = 20`. -/
def exRoom : Room := ⟨[⟨[(0, 0), (10, 0)]⟩], [(5, 3)], [exSources], 0, 20⟩

/-- Globals as bound by the `__main__` block: `room_dim = [10, 6]`. -/
def gMain : Globals := ⟨some (10, 6), none, none⟩

/-- Globals with a different `room_dim` binding. -/
def gAlt : Globals := ⟨some (20, 6), none, none⟩

/-- Globals in which `room_dim` is unbound. -/
def gNone : Globals := ⟨none, some exRoom, some 40⟩

/-- C1: for every frame number `n ≥ 0` and sampling rate `fs > 0`,
`animate(n, ax, line, propagations, rir, fs)` sets the radius of every
circle in `propagations` to `(n / fs) * 343`: each circle expands at the
speed of sound as a function of frame time. -/
theorem animate_radius_speed_of_sound (n fs : ℕ) (rir : List ℚ)
    (s : AnimState) (_hfs : 0 < fs) :
    ∀ c ∈ (animate n fs rir s).circles,
      c.radius = ((n : ℚ) / (fs : ℚ)) * speedOfSound := by
  intro c hc
  simp only [animate, animateGo_fst, List.mem_map] at hc
  obtain ⟨c₀, _, rfl⟩ := hc
  rfl

theorem animate_radius_speed_of_sound_witness :
    0 < 4 ∧ ∀ c ∈ (animate 2 4 [] exState).circles,
      c.radius = (((2 : ℕ) : ℚ) / ((4 : ℕ) : ℚ)) * speedOfSound :=
  ⟨by decide, animate_radius_speed_of_sound 2 4 [] exState (by decide)⟩

/-- C2: after `animate` runs with a non-empty propagations list, the
revealed waveform is exactly the first `n` samples `rir[:n]` plotted at
times `k / fs` for `0 ≤ k < n`, and the radius of every circle is
`343 * (n / fs)`: the circle expansion and the waveform reveal are in
sync. -/
theorem animate_sync_radius_reveal (n fs : ℕ) (rir : List ℚ) (s : AnimState)
    (_hfs : 0 < fs) (hne : s.circles ≠ []) :
    (animate n fs rir s).lineData
        = ((List.range n).map (fun k => (k : ℚ) / (fs : ℚ)), rir.take n)
      ∧ ∀ c ∈ (animate n fs rir s).circles,
          c.radius = speedOfSound * ((n : ℚ) / (fs : ℚ)) := by
  constructor
  · simp only [animate, animateGo_snd_ne _ _ _ _ _ _ _ hne, timeAxis]
  · intro c hc
    simp only [animate, animateGo_fst, List.mem_map] at hc
    obtain ⟨c₀, _, rfl⟩ := hc
    exact mul_comm _ _

theorem animate_sync_radius_reveal_witness :
    (animate 2 4 [1, 2, 3] exState).lineData
        = ((List.range 2).map (fun k => (k : ℚ) / ((4 : ℕ) : ℚ)),
            ([1, 2, 3] : List ℚ).take 2)
      ∧ ∀ c ∈ (animate 2 4 [1, 2, 3] exState).circles,
          c.radius = speedOfSound * (((2 : ℕ) : ℚ) / ((4 : ℕ) : ℚ)) :=
  animate_sync_radius_reveal 2 4 [1, 2, 3] exState (by decide) (by decide)

/-- C10: the reveal-line and title updates sit inside the circle loop with
loop-invariant arguments, so the post-state of `animate` on a non-empty
propagations list equals the state obtained by executing them exactly
once; on an empty propagations list the line data and the title are left
unchanged. -/
theorem animate_loop_updates_once (n fs : ℕ) (rir : List ℚ) (s : AnimState)
    (_hfs : 0 < fs) :
    (s.circles ≠ [] → animate n fs rir s = animateOnceS n fs rir s)
    ∧ (s.circles = [] →
        (animate n fs rir s).lineData = s.lineData
        ∧ (animate n fs rir s).title = s.title) := by
  constructor
  · intro h
    simp only [animate, animateOnceS, animateGo_fst,
      animateGo_snd_ne _ _ _ _ _ _ _ h]
  · intro h
    simp [animate, h, animateGo]

theorem animate_loop_updates_once_witness :
    (animate 2 4 [1, 2, 3] exState = animateOnceS 2 4 [1, 2, 3] exState)
    ∧ ((animate 2 4 [1, 2, 3] exStateEmpty).lineData = exStateEmpty.lineData
        ∧ (animate 2 4 [1, 2, 3] exStateEmpty).title = exStateEmpty.title) :=
  ⟨(animate_loop_updates_once 2 4 [1, 2, 3] exState (by decide)).1 (by decide),
    (animate_loop_updates_once 2 4 [1, 2, 3] exStateEmpty (by decide)).2 (by decide)⟩

/-- C8: for every frame number `n` actually driven by `create_animation`,
i.e. `n < int(0.1 * fs)`, the alpha value `animate` assigns to each
circle is `1 - 10 * (n / fs)`, which lies in `(0, 1]`: it equals 1 at
frame 0, strictly decreases with the frame number, and never reaches zero
within the exported animation. -/
theorem animate_alpha_in_unit_interval (n fs : ℕ) (rir : List ℚ)
    (s : AnimState) (hn : n < numFrames fs) :
    (∀ c ∈ (animate n fs rir s).circles, c.alpha = some (animAlpha n fs))
    ∧ 0 < animAlpha n fs ∧ animAlpha n fs ≤ 1
    ∧ animAlpha 0 fs = 1
    ∧ ∀ m, m < numFrames fs → n < m → animAlpha m fs < animAlpha n fs := by
  have hfs0 : 10 * n + 10 ≤ fs := by
    simp only [numFrames] at hn
    omega
  have hQ : (0 : ℚ) < (fs : ℚ) := by
    have : 0 < fs := by omega
    exact_mod_cast this
  refine ⟨?_, ?_, ?_, ?_, ?_⟩
  · intro c hc
    simp only [animate, animateGo_fst, List.mem_map] at hc
    obtain ⟨c₀, _, rfl⟩ := hc
    rfl
  · have hlt : ((n : ℚ) / (fs : ℚ)) * 10 < 1 := by
      rw [div_mul_eq_mul_div, div_lt_one hQ]
      exact_mod_cast (by omega : n * 10 < fs)
    simp only [animAlpha]
    linarith
  · have hge : (0 : ℚ) ≤ ((n : ℚ) / (fs : ℚ)) * 10 := by positivity
    simp only [animAlpha]
    linarith
  · simp [animAlpha]
  · intro m _ hnm
    have key : (n : ℚ) / (fs : ℚ) < (m : ℚ) / (fs : ℚ) := by
      have hmQ : (n : ℚ) < (m : ℚ) := by exact_mod_cast hnm
      gcongr
    simp only [animAlpha]
    linarith

theorem animate_alpha_in_unit_interval_witness :
    (∀ c ∈ (animate 5 100 [] exState).circles,
        c.alpha = some (animAlpha 5 100))
    ∧ 0 < animAlpha 5 100 ∧ animAlpha 5 100 ≤ 1
    ∧ animAlpha 0 100 = 1
    ∧ ∀ m, m < numFrames 100 → 5 < m → animAlpha m 100 < animAlpha 5 100 :=
  animate_alpha_in_unit_interval 5 100 [] exState (by decide)

/-- Bucketing (order, position) pairs by `p.1 = o` for each
`o ∈ range (m + 1)` collects, as a multiset, exactly the pairs of order
at most `m`. -/
theorem bucket_filter_multiset {α : Type} (l : List (ℕ × α)) (m : ℕ) :
    (((List.range (m + 1)).flatMap
        (fun o => l.filter (fun p => decide (p.1 = o)))) : Multiset (ℕ × α))
      = Multiset.filter (fun p => p.1 ≤ m) (l : Multiset (ℕ × α)) := by
  induction m with
  | zero =>
      have hr : List.range 1 = [0] := rfl
      rw [hr]
      simp only [List.flatMap_cons, List.flatMap_nil, List.append_nil]
      rw [Multiset.filter_coe]
      congr 1
      apply List.filter_congr
      intro p _
      simp [Nat.le_zero]
  | succ k ih =>
      rw [List.range_succ, List.flatMap_append, ← Multiset.coe_add, ih]
      simp only [List.flatMap_cons, List.flatMap_nil, List.append_nil]
      have h2 : ((l.filter (fun p => decide (p.1 = k + 1))) : Multiset (ℕ × α))
          = Multiset.filter (fun p => p.1 = k + 1) (l : Multiset (ℕ × α)) := by
        rw [Multiset.filter_coe]
      rw [h2, Multiset.filter_add_filter]
      have h3 : Multiset.filter (fun p : ℕ × α => p.1 ≤ k ∧ p.1 = k + 1)
          (l : Multiset (ℕ × α)) = 0 := by
        rw [Multiset.filter_eq_nil]
        intro p _ hp
        omega
      rw [h3, add_zero]
      apply Multiset.filter_congr
      intro p _
      constructor
      · intro h
        omega
      · intro h
        omega

/-- The centers of the propagation circles are the image positions of the
orders `0 .. max_order`, bucketed by order. -/
theorem plotRoomCircles_centers (ims : ImageSources) (m : ℕ) :
    (plotRoomCircles ims m).map Circle.center
      = ((List.range (m + 1)).flatMap
          (fun o => ims.pairs.filter (fun p => decide (p.1 = o)))).map Prod.snd := by
  simp only [plotRoomCircles, sourcesOfOrder, List.map_flatMap, List.map_map]
  rfl

/-- The centers of the propagation circles, as a multiset, are exactly the
positions of the image sources of order at most `max_order`. -/
theorem plotRoomCircles_center_multiset (ims : ImageSources) (m : ℕ) :
    (((plotRoomCircles ims m).map Circle.center : List (ℚ × ℚ)) : Multiset (ℚ × ℚ))
      = Multiset.map Prod.snd
          (Multiset.filter (fun p => p.1 ≤ m)
            (ims.pairs : Multiset (ℕ × (ℚ × ℚ)))) := by
  rw [plotRoomCircles_centers, ← bucket_filter_multiset ims.pairs m,
    Multiset.map_coe]

/-- Filtering the zipped (order, position) pairs on the order counts the
same elements as filtering the orders, when the arrays are consistent. -/
theorem zip_filter_fst_length {α : Type} (f : ℕ → Bool) :
    ∀ (os : List ℕ) (xs : List α), os.length = xs.length →
      ((os.zip xs).filter (fun p => f p.1)).length = (os.filter f).length := by
  intro os
  induction os with
  | nil => intro xs _; rfl
  | cons o rest ih =>
      intro xs h
      cases xs with
      | nil => simp at h
      | cons x xs' =>
          simp only [List.zip_cons_cons, List.filter_cons]
          cases f o <;> simp [ih xs' (by simpa using h)]

/-- C6: for every `max_order ≥ 0` and consistent image sources,
`plot_room` creates exactly one propagation circle, of radius 0, centered
at each image-source position whose order is at most `max_order`, and
returns the list of all of them; sources of larger order get no circle. -/
theorem plot_room_propagation_circles (walls : List Wall) (mic : ℚ × ℚ)
    (ims : ImageSources) (m fs : ℕ) (init_rir : List ℚ)
    (hc : ims.orders.length = ims.images.length) :
    (plot_room walls mic ims m fs init_rir).propagations = plotRoomCircles ims m
    ∧ (∀ c ∈ plotRoomCircles ims m, c.radius = 0)
    ∧ (((plotRoomCircles ims m).map Circle.center : List (ℚ × ℚ)) : Multiset (ℚ × ℚ))
        = Multiset.map Prod.snd
            (Multiset.filter (fun p => p.1 ≤ m)
              (ims.pairs : Multiset (ℕ × (ℚ × ℚ))))
    ∧ (plotRoomCircles ims m).length
        = (ims.orders.filter (fun o => decide (o ≤ m))).length := by
  refine ⟨rfl, ?_, plotRoomCircles_center_multiset ims m, ?_⟩
  · intro c hc'
    simp only [plotRoomCircles, sourcesOfOrder, List.mem_flatMap,
      List.mem_map] at hc'
    obtain ⟨o, _, p, _, rfl⟩ := hc'
    rfl
  · have hlen : (plotRoomCircles ims m).length
        = ((plotRoomCircles ims m).map Circle.center).length :=
      (List.length_map _ _).symm
    have hcard := congrArg Multiset.card (plotRoomCircles_center_multiset ims m)
    simp only [Multiset.coe_card, Multiset.card_map] at hcard
    rw [hlen, hcard]
    have hfc : Multiset.card
        (Multiset.filter (fun p : ℕ × (ℚ × ℚ) => p.1 ≤ m) (ims.pairs : Multiset (ℕ × (ℚ × ℚ))))
        = ((ims.pairs.filter (fun p => decide (p.1 ≤ m))).length) := by
      rw [Multiset.filter_coe, Multiset.coe_card]
    rw [hfc]
    exact zip_filter_fst_length (fun o => decide (o ≤ m)) ims.orders ims.images hc

theorem plot_room_propagation_circles_witness :
    ((plot_room [⟨[(0, 0), (10, 0)]⟩] (5, 3) exSources2 1 20 []).propagations
        = plotRoomCircles exSources2 1)
    ∧ (∀ c ∈ plotRoomCircles exSources2 1, c.radius = 0)
    ∧ (((plotRoomCircles exSources2 1).map Circle.center : List (ℚ × ℚ)) : Multiset (ℚ × ℚ))
        = Multiset.map Prod.snd
            (Multiset.filter (fun p => p.1 ≤ 1)
              (exSources2.pairs : Multiset (ℕ × (ℚ × ℚ))))
    ∧ (plotRoomCircles exSources2 1).length
        = (exSources2.orders.filter (fun o => decide (o ≤ 1))).length :=
  plot_room_propagation_circles [⟨[(0, 0), (10, 0)]⟩] (5, 3) exSources2 1 20 []
    (by decide)

/-- C7: `plot_room` plots the reference waveform on the second axes, at
times `k / fs`, exactly when `init_rir` is non-empty; when it is empty
only the initially empty reveal line is added. -/
theorem plot_room_reference_waveform (walls : List Wall) (mic : ℚ × ℚ)
    (ims : ImageSources) (m fs : ℕ) (init_rir : List ℚ) :
    (init_rir ≠ [] →
      (plot_room walls mic ims m fs init_rir).axis2Lines
        = [((List.range init_rir.length).map (fun k => (k : ℚ) / (fs : ℚ)),
            init_rir), ([], [])])
    ∧ (init_rir = [] →
      (plot_room walls mic ims m fs init_rir).axis2Lines = [([], [])]) := by
  constructor
  · intro h
    have hpos : 0 < init_rir.length := List.length_pos.mpr h
    simp [plot_room, plotRoomAxis2Lines, timeAxis, hpos]
  · intro h
    subst h
    simp [plot_room, plotRoomAxis2Lines]

theorem plot_room_reference_waveform_witness :
    ((plot_room [] (5, 3) exSources 0 4 [1, 2]).axis2Lines
        = [((List.range ([1, 2] : List ℚ).length).map
              (fun k => (k : ℚ) / ((4 : ℕ) : ℚ)), ([1, 2] : List ℚ)), ([], [])])
    ∧ ((plot_room [] (5, 3) exSources 0 4 []).axis2Lines = [([], [])]) :=
  ⟨(plot_room_reference_waveform [] (5, 3) exSources 0 4 [1, 2]).1 (by decide),
    (plot_room_reference_waveform [] (5, 3) exSources 0 4 []).2 rfl⟩

/-- The full behaviour of `create_animation` when the indices are in
bounds and the global `room_dim` is bound. -/
theorem create_animation_success_trace (g : Globals) (room : Room)
    (rir : List ℚ) (idx : ℕ × ℕ) (init_rir : List ℚ) (fn : String)
    (d : ℚ × ℚ) (mic : ℚ × ℚ) (ims : ImageSources)
    (hg : g.room_dim = some d)
    (hmic : room.micPositions[idx.1]? = some mic)
    (hsrc : room.sources[idx.2]? = some ims) :
    create_animation g room rir idx init_rir fn
      = ([Event.createFigure,
          Event.roomPlotted (plot_room room.walls mic ims room.max_order
            room.fs init_rir),
          Event.setXlim 0 d.1, Event.setYlim 0 d.2, Event.tightLayout,
          Event.animationConstructed (numFrames room.fs),
          Event.saveFile (fn ++ ".mp4") 60, Event.closeFigure],
         Except.ok (runFrames room.fs rir (numFrames room.fs)
           ⟨(plot_room room.walls mic ims room.max_order room.fs
               init_rir).propagations,
            ([], []), Title.static roomTitle⟩)) := by
  simp only [create_animation, hmic, hsrc, hg]
  rfl

/-- C3: `create_animation` constructs the animation over exactly
`int(0.1 * room.fs)` frames, a frame count that does not depend on the
`rir` or `init_rir` arguments, drives `animate` over the frame numbers
`0 .. int(0.1 * room.fs) - 1`, and then exports the result. -/
theorem create_animation_frame_count (g : Globals) (room : Room)
    (rir : List ℚ) (idx : ℕ × ℕ) (init_rir : List ℚ) (fn : String)
    (d : ℚ × ℚ) (hg : g.room_dim = some d)
    (hmic : idx.1 < room.micPositions.length)
    (hsrc : idx.2 < room.sources.length) :
    ((create_animation g room rir idx init_rir fn).1.filterMap framesArg
        = [numFrames room.fs])
    ∧ (∀ (rir' init_rir' : List ℚ),
        (create_animation g room rir' idx init_rir' fn).1.filterMap framesArg
          = [numFrames room.fs])
    ∧ (∃ s0 : AnimState, (create_animation g room rir idx init_rir fn).2
        = Except.ok ((List.range (numFrames room.fs)).foldl
            (fun st k => animate k room.fs rir st) s0))
    ∧ (Event.saveFile (fn ++ ".mp4") 60
        ∈ (create_animation g room rir idx init_rir fn).1)
    ∧ ((create_animation g room rir idx init_rir fn).1.getLast?
        = some Event.closeFigure) := by
  have hm : room.micPositions[idx.1]?
      = some (room.micPositions.get ⟨idx.1, hmic⟩) :=
    List.getElem?_eq_getElem hmic
  have hs : room.sources[idx.2]? = some (room.sources.get ⟨idx.2, hsrc⟩) :=
    List.getElem?_eq_getElem hsrc
  have key := fun rir' init' =>
    create_animation_success_trace g room rir' idx init' fn d _ _ hg hm hs
  refine ⟨?_, ?_, ?_, ?_, ?_⟩
  · rw [key rir init_rir]
    simp [framesArg, List.filterMap_cons]
  · intro rir' init'
    rw [key rir' init']
    simp [framesArg, List.filterMap_cons]
  · rw [key rir init_rir]
    exact ⟨_, rfl⟩
  · rw [key rir init_rir]
    simp
  · rw [key rir init_rir]
    rfl

theorem create_animation_frame_count_witness :
    ((create_animation gMain exRoom [1] (0, 0) [] "a").1.filterMap framesArg
        = [numFrames exRoom.fs])
    ∧ (∀ (rir' init_rir' : List ℚ),
        (create_animation gMain exRoom rir' (0, 0) init_rir' "a").1.filterMap
            framesArg = [numFrames exRoom.fs])
    ∧ (∃ s0 : AnimState, (create_animation gMain exRoom [1] (0, 0) [] "a").2
        = Except.ok ((List.range (numFrames exRoom.fs)).foldl
            (fun st k => animate k exRoom.fs [1] st) s0))
    ∧ (Event.saveFile ("a" ++ ".mp4") 60
        ∈ (create_animation gMain exRoom [1] (0, 0) [] "a").1)
    ∧ ((create_animation gMain exRoom [1] (0, 0) [] "a").1.getLast?
        = some Event.closeFigure) :=
  create_animation_frame_count gMain exRoom [1] (0, 0) [] "a" (10, 6) rfl
    (by decide) (by decide)

/-- C4 as stated fails: two calls of `create_animation` with equal
explicit arguments but different module-level `room_dim` bindings behave
differently (the recorded view limits differ). -/
theorem create_animation_global_dependence_counterexample :
    (create_animation gMain exRoom [1] (0, 0) [] "ism_anim").1
      ≠ (create_animation gAlt exRoom [1] (0, 0) [] "ism_anim").1 := by
  decide

/-- C4 amended: the behaviour of `create_animation` is determined by its
explicit arguments together with the module-level global `room_dim`;
module-level bindings other than `room_dim` have no effect. -/
theorem create_animation_determined_by_room_dim (g g' : Globals)
    (h : g.room_dim = g'.room_dim) (room : Room) (rir : List ℚ)
    (idx : ℕ × ℕ) (init_rir : List ℚ) (fn : String) :
    create_animation g room rir idx init_rir fn
      = create_animation g' room rir idx init_rir fn := by
  simp only [create_animation, h]

theorem create_animation_determined_by_room_dim_witness :
    gMain.room_dim = (⟨some (10, 6), some exRoom, some 40⟩ : Globals).room_dim
    ∧ create_animation gMain exRoom [1] (0, 0) [] "a"
        = create_animation ⟨some (10, 6), some exRoom, some 40⟩ exRoom [1]
            (0, 0) [] "a" :=
  ⟨rfl, create_animation_determined_by_room_dim gMain
    ⟨some (10, 6), some exRoom, some 40⟩ rfl exRoom [1] (0, 0) [] "a"⟩

/-- C5 as stated fails: with `room_dim` unbound, an out-of-bounds
`src_recv_idx` makes `create_animation` raise IndexError at the argument
lookup, before the `room_dim` read, so not every argument tuple leads to
NameError. -/
theorem create_animation_missing_global_counterexample :
    (create_animation gNone exRoom [1] (1, 0) [] "a").2
        = Except.error PyError.indexError
    ∧ (create_animation gNone exRoom [1] (1, 0) [] "a").2
        ≠ Except.error (PyError.nameError "room_dim") := by
  refine ⟨rfl, ?_⟩
  intro h
  have h' : (Except.error PyError.indexError : Except PyError AnimState)
      = Except.error (PyError.nameError "room_dim") := h
  exact PyError.noConfusion (Except.error.inj h')

/-- C5 amended: for every argument tuple whose `src_recv_idx` components
are in bounds, if the module-level `room_dim` is unbound then
`create_animation` raises NameError, after the figure and the static room
plot have been constructed; and with `room_dim` unbound it never succeeds
for any argument tuple. -/
theorem create_animation_missing_global (g : Globals) (room : Room)
    (rir : List ℚ) (idx : ℕ × ℕ) (init_rir : List ℚ) (fn : String)
    (hg : g.room_dim = none)
    (hmic : idx.1 < room.micPositions.length)
    (hsrc : idx.2 < room.sources.length) :
    (∃ pr : PlotRoomResult, (create_animation g room rir idx init_rir fn).1
        = [Event.createFigure, Event.roomPlotted pr])
    ∧ (create_animation g room rir idx init_rir fn).2
        = Except.error (PyError.nameError "room_dim")
    ∧ ∀ (rir' : List ℚ) (idx' : ℕ × ℕ) (init' : List ℚ) (fn' : String)
        (s : AnimState),
        (create_animation g room rir' idx' init' fn').2 ≠ Except.ok s := by
  have hm : room.micPositions[idx.1]?
      = some (room.micPositions.get ⟨idx.1, hmic⟩) :=
    List.getElem?_eq_getElem hmic
  have hs : room.sources[idx.2]? = some (room.sources.get ⟨idx.2, hsrc⟩) :=
    List.getElem?_eq_getElem hsrc
  refine ⟨⟨plot_room room.walls (room.micPositions.get ⟨idx.1, hmic⟩)
      (room.sources.get ⟨idx.2, hsrc⟩) room.max_order room.fs init_rir, ?_⟩,
    ?_, ?_⟩
  · simp only [create_animation, hm, hs, hg]
    rfl
  · simp only [create_animation, hm, hs, hg]
  · intro rir' idx' init' fn' s
    simp only [create_animation, hg]
    cases room.micPositions[idx'.1]? with
    | none => simp
    | some mic' =>
        cases room.sources[idx'.2]? with
        | none => simp
        | some ims' => simp

theorem create_animation_missing_global_witness :
    (∃ pr : PlotRoomResult, (create_animation gNone exRoom [1] (0, 0) [] "a").1
        = [Event.createFigure, Event.roomPlotted pr])
    ∧ (create_animation gNone exRoom [1] (0, 0) [] "a").2
        = Except.error (PyError.nameError "room_dim")
    ∧ ∀ (rir' : List ℚ) (idx' : ℕ × ℕ) (init' : List ℚ) (fn' : String)
        (s : AnimState),
        (create_animation gNone exRoom rir' idx' init' fn').2 ≠ Except.ok s :=
  create_animation_missing_global gNone exRoom [1] (0, 0) [] "a" rfl
    (by decide) (by decide)

/-- C9: `create_animation` exports the rendered animation to the file
`filename + ".mp4"` via the FFMpeg writer at 60 fps and then closes the
figure; with the default filename `"ism_anim"` the file is
`"ism_anim.mp4"`. -/
theorem create_animation_export_mp4 (g : Globals) (room : Room)
    (rir : List ℚ) (idx : ℕ × ℕ) (init_rir : List ℚ) (fn : String)
    (d : ℚ × ℚ) (hg : g.room_dim = some d)
    (hmic : idx.1 < room.micPositions.length)
    (hsrc : idx.2 < room.sources.length) :
    (∃ pre, (create_animation g room rir idx init_rir fn).1
        = pre ++ [Event.saveFile (fn ++ ".mp4") 60, Event.closeFigure])
    ∧ (∃ pre, (create_animation g room rir idx init_rir "ism_anim").1
        = pre ++ [Event.saveFile "ism_anim.mp4" 60, Event.closeFigure]) := by
  have hm : room.micPositions[idx.1]?
      = some (room.micPositions.get ⟨idx.1, hmic⟩) :=
    List.getElem?_eq_getElem hmic
  have hs : room.sources[idx.2]? = some (room.sources.get ⟨idx.2, hsrc⟩) :=
    List.getElem?_eq_getElem hsrc
  constructor
  · refine ⟨[Event.createFigure,
      Event.roomPlotted (plot_room room.walls
        (room.micPositions.get ⟨idx.1, hmic⟩) (room.sources.get ⟨idx.2, hsrc⟩)
        room.max_order room.fs init_rir),
      Event.setXlim 0 d.1, Event.setYlim 0 d.2, Event.tightLayout,
      Event.animationConstructed (numFrames room.fs)], ?_⟩
    rw [create_animation_success_trace g room rir idx init_rir fn d _ _ hg hm hs]
    rfl
  · refine ⟨[Event.createFigure,
      Event.roomPlotted (plot_room room.walls
        (room.micPositions.get ⟨idx.1, hmic⟩) (room.sources.get ⟨idx.2, hsrc⟩)
        room.max_order room.fs init_rir),
      Event.setXlim 0 d.1, Event.setYlim 0 d.2, Event.tightLayout,
      Event.animationConstructed (numFrames room.fs)], ?_⟩
    rw [create_animation_success_trace g room rir idx init_rir "ism_anim" d _ _
      hg hm hs]
    rfl

theorem create_animation_export_mp4_witness :
    (∃ pre, (create_animation gMain exRoom [1] (0, 0) [] "clip").1
        = pre ++ [Event.saveFile ("clip" ++ ".mp4") 60, Event.closeFigure])
    ∧ (∃ pre, (create_animation gMain exRoom [1] (0, 0) [] "ism_anim").1
        = pre ++ [Event.saveFile "ism_anim.mp4" 60, Event.closeFigure]) :=
  create_animation_export_mp4 gMain exRoom [1] (0, 0) [] "clip" (10, 6) rfl
    (by decide) (by decide)

end ISMAnimation
